import Mathlib

/-!
Shallow embedding of `src/app.py` (analytics microservice for Moodle
adaptive quizzes): the `/analyze` request handler with its dry-run CSV
path and its live-mode JSON-recovery path.

Modelling conventions:
* Python strings are Lean `String`s; the string helpers (`strip`,
  `splitlines`, `split(",")`, `find`, `rfind`, slicing) are re-implemented
  below with Python's semantics on the common (ASCII) separators.
* Python `dict`s are ordered association lists with unique keys;
  `dictGet` / `dictSet` / `mkDict` mirror lookup, item assignment and
  `dict(...)` construction (last value wins for a duplicated key).
* The only Python floats in the handler are the literals `50.0` and `0.4`
  (no float arithmetic occurs), modelled as the exact rationals `50` and
  `2/5`.
* `json.loads` is modelled by a fuel-based recursive-descent parser
  `jsonParse` over the standard JSON grammar.
* The external model call is an oracle `String → String` from the built
  prompt to the response text; error envelopes carry the Python exception
  kind (messages abridged except where a claim pins the exact body).
-/

/-- JSON values as produced by `json.loads`; number literals are kept as
their source text, since `app.py` performs no arithmetic on them. -/
inductive Json where
  | null : Json
  | bool : Bool → Json
  | num : String → Json
  | str : String → Json
  | arr : List Json → Json
  | obj : List (String × Json) → Json

/-- Lookup in a Python `dict` modelled as an association list
(keys are unique, so first match is the match). -/
def dictGet {α : Type} : List (String × α) → String → Option α
  | [], _ => none
  | (k', v) :: rest, k => if k' = k then some v else dictGet rest k

/-- Item assignment `d[k] = v` on a Python `dict`: replace in place if the
key is present, otherwise append at the end (insertion order). -/
def dictSet {α : Type} : List (String × α) → String → α → List (String × α)
  | [], k, v => [(k, v)]
  | (k', v') :: rest, k, v =>
      if k' = k then (k, v) :: rest else (k', v') :: dictSet rest k v

/-- Build a Python `dict` from a sequence of key/value pairs, as
`dict(zip(...))` does: first occurrence fixes the position, last value
wins. -/
def mkDict {α : Type} (l : List (String × α)) : List (String × α) :=
  l.foldl (fun d p => dictSet d p.1 p.2) []

/-- ASCII whitespace recognised by Python's `str.strip()` and blank-line
tests. -/
def isPySpace (c : Char) : Bool :=
  c == ' ' || c == '\t' || c == '\n' || c == '\r' || c == '\x0b' || c == '\x0c'

/-- Core of `str.strip()`: drop leading and trailing whitespace. -/
def pyStripList (l : List Char) : List Char :=
  ((l.dropWhile isPySpace).reverse.dropWhile isPySpace).reverse

/-- Python `str.strip()`. -/
def pyStrip (s : String) : String := ⟨pyStripList s.data⟩

/-- Accumulator loop for `str.splitlines()`: split at `\n`, `\r\n` or `\r`,
with no trailing empty line. -/
def splitlinesAux (acc : List Char) : List Char → List (List Char)
  | [] => if acc.isEmpty then [] else [acc.reverse]
  | '\r' :: '\n' :: rest => acc.reverse :: splitlinesAux [] rest
  | c :: rest =>
      if c == '\n' || c == '\r' then acc.reverse :: splitlinesAux [] rest
      else splitlinesAux (c :: acc) rest

/-- Python `str.splitlines()` (restricted to the `\n`, `\r\n`, `\r`
separators, the ones CSV exports produce). -/
def pySplitlines (s : String) : List String :=
  (splitlinesAux [] s.data).map String.mk

/-- Accumulator loop for `str.split(",")`. -/
def splitCommaAux (acc : List Char) : List Char → List (List Char)
  | [] => [acc.reverse]
  | ',' :: rest => acc.reverse :: splitCommaAux [] rest
  | c :: rest => splitCommaAux (c :: acc) rest

/-- Python `str.split(",")`: the result is never empty and empty fields are
kept. -/
def pySplitComma (s : String) : List String :=
  (splitCommaAux [] s.data).map String.mk

/-- Digit loop of Python `int(str)`: base-10 digits with single `_`
separators allowed between digits. -/
def digitsAux (acc : Nat) : List Char → Option Nat
  | [] => some acc
  | '_' :: c :: rest =>
      if c.isDigit then digitsAux (acc * 10 + (c.toNat - 48)) rest else none
  | c :: rest =>
      if c.isDigit then digitsAux (acc * 10 + (c.toNat - 48)) rest else none

/-- Nonempty digit sequence at the start of the input. -/
def startDigits : List Char → Option Nat
  | [] => none
  | c :: rest => if c.isDigit then digitsAux (c.toNat - 48) rest else none

/-- Python `int(str)` on a character list: surrounding whitespace stripped,
optional sign, then a nonempty digit string; `none` models the
`ValueError` raised on anything else. -/
def pyIntL (l : List Char) : Option Int :=
  match pyStripList l with
  | '+' :: rest => (startDigits rest).map (fun n => (n : Int))
  | '-' :: rest => (startDigits rest).map (fun n => -(n : Int))
  | rest => (startDigits rest).map (fun n => (n : Int))

/-- Python `int(str)`. -/
def pyInt (s : String) : Option Int := pyIntL s.data

/-- One dry-run result row, mirroring the dict literal built in the
dry-run loop of `analyze` (line 61 of `app.py`). -/
structure DryItem where
  userid : Int
  risk_score : ℚ
  confidence : ℚ
  drivers : List String
  student_msg : String
  teacher_msg : String
  features : List (String × String)
deriving DecidableEq

/-- The placeholder item the dry-run loop appends for one CSV row. -/
def mkDryItem (uid : Int) (record : List (String × String)) : DryItem :=
  ⟨uid, 50, 2/5, ["dry-run mode"], "Dry-run preview.",
   "Dry-run: Verify Moodle ↔ Analytics link.", record⟩

/-- Non-blank lines of the CSV text:
`[ln for ln in csv_text.splitlines() if ln.strip()]`. -/
def nonBlankLines (csvText : String) : List String :=
  (pySplitlines csvText).filter (fun ln => !(pyStrip ln == ""))

/-- Header row: `lines[0].split(",") if lines else []`. -/
def headerOf (csvText : String) : List String :=
  match nonBlankLines csvText with
  | [] => []
  | l :: _ => pySplitComma l

/-- Record built for one data row: `dict(zip(hdr, row.split(",")))`. -/
def rowRecord (hdr : List String) (row : String) : List (String × String) :=
  mkDict (hdr.zip (pySplitComma row))

/-- Userid derivation `int(rec.get("userid", "0") or 0)`: an absent key
yields `int("0")`, an empty value falls through `or` to `int(0)`, and any
other value goes to `int(str)`, whose failure (`none`) is the Python
`ValueError` that escapes to the handler boundary. -/
def deriveUserid (record : List (String × String)) : Option Int :=
  match dictGet record "userid" with
  | none => some 0
  | some s => if s = "" then some 0 else pyInt s

/-- The dry-run `for row in lines[1:]` loop: build each record, derive its
userid, and abort with `ValueError` when `int()` fails. -/
def dryRunLoop (hdr : List String) : List String → Except String (List DryItem)
  | [] => .ok []
  | row :: rest =>
      match deriveUserid (rowRecord hdr row) with
      | some uid =>
          match dryRunLoop hdr rest with
          | .ok items => .ok (mkDryItem uid (rowRecord hdr row) :: items)
          | .error e => .error e
      | none => .error "ValueError"

/-- Inbound `/analyze` payload after `request.get_json(...) or {}`: each
field is `none` when absent (or JSON `null`). -/
structure AnalyzeRequest where
  csv : Option String
  schema : Option (List String)
  run_label : Option String
  dryrun : Option Json

/-- Whether a JSON number literal denotes zero: no nonzero digit occurs in
its mantissa. -/
def numIsZero (s : String) : Bool :=
  (s.data.takeWhile (fun c => !(c == 'e' || c == 'E'))).all
    (fun c => !c.isDigit || c == '0')

/-- Python truthiness `bool(x)` on JSON-decoded values. -/
def pyTruthy : Json → Bool
  | .null => false
  | .bool b => b
  | .num s => !numIsZero s
  | .str s => !(s == "")
  | .arr xs => !xs.isEmpty
  | .obj fs => !fs.isEmpty

/-- `csv_text = (data.get("csv") or "").strip()`. -/
def effectiveCsv (req : AnalyzeRequest) : String :=
  pyStrip (req.csv.getD "")

/-- The default column list of `app.py` line 44. -/
def defaultSchema : List String :=
  ["userid", "username", "quizname", "difficultysum", "standarderror",
   "measure", "timetaken"]

/-- `schema = data.get("schema") or [ ...defaults... ]` (an empty list is
falsy and also falls back to the default). -/
def effectiveSchema (req : AnalyzeRequest) : List String :=
  match req.schema with
  | none => defaultSchema
  | some l => if l.isEmpty then defaultSchema else l

/-- `dryrun = bool(data.get("dryrun", False))`. -/
def effectiveDryrun (req : AnalyzeRequest) : Bool :=
  match req.dryrun with
  | none => false
  | some j => pyTruthy j

/-- `run_label = data.get("run_label") or f"manual_{...}"`: an absent or
empty (falsy) label falls back to `manual_` + today's `YYYY-MM-DD` date,
which the embedding receives as the `today` parameter. -/
def effectiveRunLabel (req : AnalyzeRequest) (today : String) : String :=
  match req.run_label with
  | none => "manual_" ++ today
  | some s => if s = "" then "manual_" ++ today else s

/-- Mode policy of line 53: `if dryrun or not OPENAI_API_KEY`. -/
def chooseDryRun (apiKey : String) (req : AnalyzeRequest) : Bool :=
  effectiveDryrun req || decide (apiKey = "")

/-- JSON insignificant whitespace. -/
def skipWs (l : List Char) : List Char :=
  l.dropWhile (fun c => c == ' ' || c == '\t' || c == '\n' || c == '\r')

/-- Escape table for JSON string literals. -/
def escChar : Char → Option Char
  | '"' => some '"'
  | '\\' => some '\\'
  | '/' => some '/'
  | 'b' => some '\x08'
  | 'f' => some '\x0c'
  | 'n' => some '\n'
  | 'r' => some '\r'
  | 't' => some '\t'
  | _ => none

/-- Hexadecimal digit value. -/
def hexVal (c : Char) : Option Nat :=
  if c.isDigit then some (c.toNat - 48)
  else if 'a' ≤ c ∧ c ≤ 'f' then some (c.toNat - 87)
  else if 'A' ≤ c ∧ c ≤ 'F' then some (c.toNat - 55)
  else none

/-- Body of a JSON string literal after the opening quote: returns the
decoded characters and the rest of the input after the closing quote. -/
def parseStrBody (acc : List Char) : List Char → Option (List Char × List Char)
  | [] => none
  | '"' :: r => some (acc.reverse, r)
  | '\\' :: 'u' :: a :: b :: c :: d :: r =>
      match hexVal a, hexVal b, hexVal c, hexVal d with
      | some x, some y, some z, some w =>
          parseStrBody (Char.ofNat (((x * 16 + y) * 16 + z) * 16 + w) :: acc) r
      | _, _, _, _ => none
  | '\\' :: e :: r =>
      match escChar e with
      | some c => parseStrBody (c :: acc) r
      | none => none
  | c :: r => if c.toNat < 32 then none else parseStrBody (c :: acc) r

/-- Longest digit run at the head of the input. -/
def takeDigits (l : List Char) : List Char × List Char :=
  l.span Char.isDigit

/-- Integer part of a JSON number: `0` or a nonzero digit followed by
digits. -/
def parseIntPart : List Char → Option (List Char × List Char)
  | '0' :: r => some (['0'], r)
  | c :: r =>
      if c.isDigit then
        match takeDigits r with
        | (ds, r1) => some (c :: ds, r1)
      else none
  | [] => none

/-- Fraction part of a JSON number, or nothing if absent. -/
def parseFrac : List Char → List Char × List Char
  | '.' :: r =>
      (match takeDigits r with
       | ([], _) => ([], '.' :: r)
       | (ds, r1) => ('.' :: ds, r1))
  | l => ([], l)

/-- Exponent part of a JSON number, or nothing if absent. -/
def parseExp : List Char → List Char × List Char
  | e :: r =>
      if e == 'e' || e == 'E' then
        let (sg, r1) :=
          match r with
          | '+' :: t => (['+'], t)
          | '-' :: t => (['-'], t)
          | _ => (([] : List Char), r)
        match takeDigits r1 with
        | ([], _) => ([], e :: r)
        | (ds, r2) => (e :: (sg ++ ds), r2)
      else ([], e :: r)
  | [] => ([], [])

/-- JSON number at the head of the input; the literal text is retained. -/
def parseNumber (l : List Char) : Option (Json × List Char) :=
  let (sgn, l1) :=
    match l with
    | '-' :: r => ((['-'] : List Char), r)
    | _ => (([] : List Char), l)
  match parseIntPart l1 with
  | none => none
  | some (ip, l2) =>
      let (fp, l3) := parseFrac l2
      let (ep, l4) := parseExp l3
      some (Json.num ⟨sgn ++ ip ++ fp ++ ep⟩, l4)

mutual

/-- Fuel-based recursive-descent JSON value at the head of the input. -/
def parseVal : Nat → List Char → Option (Json × List Char)
  | 0, _ => none
  | f + 1, l =>
      match skipWs l with
      | 'n' :: 'u' :: 'l' :: 'l' :: r => some (.null, r)
      | 't' :: 'r' :: 'u' :: 'e' :: r => some (.bool true, r)
      | 'f' :: 'a' :: 'l' :: 's' :: 'e' :: r => some (.bool false, r)
      | '"' :: r =>
          (parseStrBody [] r).map (fun p => (Json.str ⟨p.1⟩, p.2))
      | '{' :: r => parseObjBody f (skipWs r) []
      | '[' :: r => parseArrBody f (skipWs r) []
      | l1 => parseNumber l1

/-- Members of a JSON object after the opening brace (whitespace already
skipped); `acc` holds the members parsed so far, reversed. -/
def parseObjBody : Nat → List Char → List (String × Json) →
    Option (Json × List Char)
  | 0, _, _ => none
  | f + 1, l, acc =>
      match l with
      | '}' :: r => if acc.isEmpty then some (.obj [], r) else none
      | '"' :: r =>
          match parseStrBody [] r with
          | some (kcs, r1) =>
              match skipWs r1 with
              | ':' :: r2 =>
                  match parseVal f r2 with
                  | some (v, r3) =>
                      match skipWs r3 with
                      | ',' :: r4 =>
                          parseObjBody f (skipWs r4) ((⟨kcs⟩, v) :: acc)
                      | '}' :: r4 =>
                          some (.obj (mkDict ((⟨kcs⟩, v) :: acc).reverse), r4)
                      | _ => none
                  | none => none
              | _ => none
          | none => none
      | _ => none

/-- Elements of a JSON array after the opening bracket (whitespace already
skipped); `acc` holds the elements parsed so far, reversed. -/
def parseArrBody : Nat → List Char → List Json → Option (Json × List Char)
  | 0, _, _ => none
  | f + 1, l, acc =>
      match l with
      | ']' :: r => if acc.isEmpty then some (.arr [], r) else none
      | _ =>
          match parseVal f l with
          | some (v, r1) =>
              match skipWs r1 with
              | ',' :: r2 => parseArrBody f r2 (v :: acc)
              | ']' :: r2 => some (.arr (v :: acc).reverse, r2)
              | _ => none
          | none => none

end

/-- Python `json.loads` on a character list: parse one value and require
only whitespace to remain. The fuel `2 * length + 4` dominates the two
fuel decrements any consumed character can cause. -/
def jsonParseL (l : List Char) : Option Json :=
  match parseVal (2 * l.length + 4) l with
  | some (j, rest) => if skipWs rest = [] then some j else none
  | none => none

/-- Python `json.loads`. -/
def jsonParse (s : String) : Option Json := jsonParseL s.data

/-- First index of a character, as Python `str.find` (with `-1` as
`none`). -/
def findIdxC (c : Char) : List Char → Option Nat
  | [] => none
  | x :: xs => if x = c then some 0 else (findIdxC c xs).map (· + 1)

/-- Last index of a character, as Python `str.rfind` (with `-1` as
`none`). -/
def rfindIdxC (c : Char) (l : List Char) : Option Nat :=
  match findIdxC c l.reverse with
  | some i => some (l.length - 1 - i)
  | none => none

/-- Python slice `l[a:b]`. -/
def pySlice (l : List Char) (a b : Nat) : List Char :=
  (l.drop a).take (b - a)

/-- Parsing of the model's response text (lines 118-126 of `app.py`):
`json.loads` directly, else retry on the slice from the first `\x7b` to
the last `\x7d` inclusive, else `ValueError`. A failed retry escapes as
the `json.JSONDecodeError` of the inner `loads`. -/
def parseModelTextL (l : List Char) : Except String Json :=
  match jsonParseL l with
  | some j => .ok j
  | none =>
      match findIdxC '{' l, rfindIdxC '}' l with
      | some st, some en =>
          match jsonParseL (pySlice l st (en + 1)) with
          | some j => .ok j
          | none => .error "JSONDecodeError"
      | _, _ => .error "ValueError: Invalid JSON returned from model"

/-- Parsing of the model's response text, on strings. -/
def parseModelText (s : String) : Except String Json :=
  parseModelTextL s.data

/-- Post-processing of the parsed upstream object (lines 128-130):
`parsed.setdefault("run_label", run_label)` and coercion of a missing or
non-list `items` to `[]`. A non-dict value has no `setdefault` attribute,
which raises `AttributeError`. -/
def postProcess (runLabel : String) : Json → Except String Json
  | .obj fields =>
      let f1 :=
        if (dictGet fields "run_label").isSome then fields
        else fields ++ [("run_label", Json.str runLabel)]
      let f2 :=
        match dictGet f1 "items" with
        | some (.arr _) => f1
        | _ => dictSet f1 "items" (.arr [])
      .ok (.obj f2)
  | _ => .error "AttributeError"

/-- The prompt built in live mode (lines 73-99), with the f-string holes
filled and the final `.strip()` applied. -/
def buildPrompt (schemaList runLabel csvText : String) : String :=
  pyStrip
    ("\nYou are a learning analytics model. Analyze this CSV and return JSON only.\nColumns: "
      ++ schemaList
      ++ ".\nEach record = 1 quiz attempt. Aggregate by userid.\n\nOutput exactly:\n\x7b\n  \"run_label\": \""
      ++ runLabel
      ++ "\",\n  \"items\": [\n    \x7b\n      \"userid\": int,\n      \"risk_score\": float,     # 0–100 (higher = higher risk)\n      \"confidence\": float,     # 0–1 (model certainty)\n      \"drivers\": [string],     # 1–4 short causes\n      \"student_msg\": string,   # actionable note for student\n      \"teacher_msg\": string    # actionable note for teacher\n    \x7d\n  ]\n\x7d\n\nIf data insufficient, set confidence low (~0.3) and neutral risk (~50).\nReturn ONLY valid JSON — no markdown, no commentary.\n\nCSV data:\n"
      ++ csvText
      ++ "\n        ")

/-- The prompt sent for a given request. -/
def promptOf (req : AnalyzeRequest) (today : String) : String :=
  buildPrompt (String.intercalate ", " (effectiveSchema req))
    (effectiveRunLabel req today) (effectiveCsv req)

/-- Observable outcome of one `/analyze` request: the HTTP status plus the
mode-tagged 200 body (`jsonify` of the dry-run structure or of the
post-processed upstream object). 500 envelopes carry the exception kind. -/
inductive AnalyzeResponse where
  | badRequest : String → AnalyzeResponse
  | dryOk : String → List DryItem → AnalyzeResponse
  | liveOk : Json → AnalyzeResponse
  | serverError : String → AnalyzeResponse

/-- Dry-run branch result (lines 53-70). -/
def dryRunResponse (runLabel csvText : String) : AnalyzeResponse :=
  match dryRunLoop (headerOf csvText) ((nonBlankLines csvText).drop 1) with
  | .ok items => .dryOk runLabel items
  | .error e => .serverError e

/-- Live branch result (lines 101-132) for a given response text. -/
def liveResponse (runLabel : String) (text : String) : AnalyzeResponse :=
  match parseModelText text with
  | .ok j =>
      match postProcess runLabel j with
      | .ok body => .liveOk body
      | .error e => .serverError e
  | .error e => .serverError e

/-- The `/analyze` handler: validation, then the mode policy of line 53.
`modelCall` is the external text-generation collaborator, mapping the
built prompt to the text extracted from its response. -/
def analyze (apiKey today : String) (modelCall : String → String)
    (req : AnalyzeRequest) : AnalyzeResponse :=
  if effectiveCsv req = "" then .badRequest "Missing CSV data"
  else if chooseDryRun apiKey req then
    dryRunResponse (effectiveRunLabel req today) (effectiveCsv req)
  else
    liveResponse (effectiveRunLabel req today) (modelCall (promptOf req today))

/-! ### Helper lemmas about the dictionary model -/

/-- Appending a pair with a different key does not change a lookup. -/
theorem dictGet_append_right_ne {α : Type} (d : List (String × α))
    (k k' : String) (v : α) (h : k ≠ k') :
    dictGet (d ++ [(k', v)]) k = dictGet d k := by
  induction d with
  | nil => simp [dictGet, Ne.symm h]
  | cons p rest ih =>
      cases p with
      | mk k2 v2 =>
          by_cases hk : k2 = k <;> simp [dictGet, hk, ih]

/-- Appending a pair with an absent key makes it found. -/
theorem dictGet_append_self {α : Type} (d : List (String × α))
    (k : String) (v : α) (h : dictGet d k = none) :
    dictGet (d ++ [(k, v)]) k = some v := by
  induction d with
  | nil => simp [dictGet]
  | cons p rest ih =>
      cases p with
      | mk k2 v2 =>
          by_cases hk : k2 = k
          · simp [dictGet, hk] at h
          · simp [dictGet, hk] at h ⊢
            exact ih h

/-- Item assignment makes its key map to the assigned value. -/
theorem dictGet_dictSet_self {α : Type} (d : List (String × α))
    (k : String) (v : α) : dictGet (dictSet d k v) k = some v := by
  induction d with
  | nil => simp [dictGet, dictSet]
  | cons p rest ih =>
      cases p with
      | mk k2 v2 =>
          by_cases hk : k2 = k <;> simp [dictGet, dictSet, hk, ih]

/-- Item assignment leaves other keys untouched. -/
theorem dictGet_dictSet_ne {α : Type} (d : List (String × α))
    (k k' : String) (v : α) (h : k ≠ k') :
    dictGet (dictSet d k' v) k = dictGet d k := by
  induction d with
  | nil => simp [dictGet, dictSet, Ne.symm h]
  | cons p rest ih =>
      cases p with
      | mk k2 v2 =>
          by_cases h2 : k2 = k'
          · subst h2
            simp [dictGet, dictSet, Ne.symm h, h]
          · by_cases hk : k2 = k <;> simp [dictGet, dictSet, h2, hk, ih, h]

/-- Assigning a fresh key appends it. -/
theorem dictSet_of_not_mem {α : Type} (d : List (String × α))
    (k : String) (v : α) (h : k ∉ d.map Prod.fst) :
    dictSet d k v = d ++ [(k, v)] := by
  induction d with
  | nil => rfl
  | cons p rest ih =>
      cases p with
      | mk k2 v2 =>
          simp only [List.map_cons, List.mem_cons] at h
          push_neg at h
          simp [dictSet, Ne.symm h.1, ih h.2]

/-- Folding `dictSet` over fresh, pairwise distinct keys just appends. -/
theorem foldl_dictSet_fresh {α : Type} :
    ∀ (l d : List (String × α)),
      (d.map Prod.fst ++ l.map Prod.fst).Nodup →
      l.foldl (fun d p => dictSet d p.1 p.2) d = d ++ l := by
  intro l
  induction l with
  | nil => intro d _; simp
  | cons p t ih =>
      intro d h
      cases p with
      | mk k v =>
          have h' := h
          rw [List.nodup_append] at h'
          have hk : k ∉ d.map Prod.fst := by
            intro hmem
            exact h'.2.2 hmem (by simp)
          rw [List.foldl_cons]
          rw [dictSet_of_not_mem d k v hk]
          rw [ih (d ++ [(k, v)]) ?_]
          · simp
          · simpa [List.append_assoc] using h
  
/-- A key/value list with pairwise distinct keys is its own dict. -/
theorem mkDict_eq_self {α : Type} (l : List (String × α))
    (h : (l.map Prod.fst).Nodup) : mkDict l = l := by
  have := foldl_dictSet_fresh l [] (by simpa using h)
  simpa [mkDict] using this

/-! ### Helper lemmas about the string model -/

/-- Stripping an all-whitespace string yields the empty string. -/
theorem pyStripList_eq_nil (l : List Char) (h : ∀ c ∈ l, isPySpace c) :
    pyStripList l = [] := by
  unfold pyStripList
  rw [List.dropWhile_eq_nil_iff.mpr h]
  rfl

/-- A character absent from a list is not found. -/
theorem findIdxC_eq_none (c : Char) (l : List Char) (h : c ∉ l) :
    findIdxC c l = none := by
  induction l with
  | nil => rfl
  | cons x xs ih =>
      simp only [List.mem_cons] at h
      push_neg at h
      simp [findIdxC, Ne.symm h.1, ih h.2]

/-- Finding skips a prefix that lacks the character. -/
theorem findIdxC_append (c : Char) (p l : List Char) (h : c ∉ p) :
    findIdxC c (p ++ l) = (findIdxC c l).map (· + p.length) := by
  induction p with
  | nil =>
      cases hf : findIdxC c l <;> simp [hf]
  | cons x xs ih =>
      simp only [List.mem_cons] at h
      push_neg at h
      rw [List.cons_append]
      simp only [findIdxC, Ne.symm h.1, if_neg (Ne.symm h.1), ih h.2]
      cases hf : findIdxC c l
      · simp
      · simp [List.length_cons]
        omega

/-! ### Helper lemmas about the dry-run loop -/

/-- When every row's userid derivation succeeds, the dry-run loop returns
one placeholder item per row, whose features are the row's record. -/
theorem dryRunLoopSound (hdr : List String) (rows : List String)
    (h : ∀ row ∈ rows, (deriveUserid (rowRecord hdr row)).isSome = true) :
    ∃ items, dryRunLoop hdr rows = .ok items
      ∧ items.length = rows.length
      ∧ (∀ it ∈ items, it.risk_score = 50 ∧ it.confidence = 2/5
          ∧ it.drivers = ["dry-run mode"]
          ∧ it.student_msg = "Dry-run preview."
          ∧ it.teacher_msg = "Dry-run: Verify Moodle ↔ Analytics link.")
      ∧ items.map DryItem.features = rows.map (rowRecord hdr) := by
  induction rows with
  | nil => exact ⟨[], rfl, rfl, by simp, rfl⟩
  | cons row rest ih =>
      have hrow := h row (by simp)
      rcases hu : deriveUserid (rowRecord hdr row) with _ | uid
      · rw [hu] at hrow; simp at hrow
      · obtain ⟨items, hloop, hlen, hfields, hfeat⟩ :=
          ih (fun r hr => h r (by simp [hr]))
        refine ⟨mkDryItem uid (rowRecord hdr row) :: items, ?_, ?_, ?_, ?_⟩
        · simp [dryRunLoop, hu, hloop]
        · simp [hlen]
        · intro it hit
          rcases List.mem_cons.mp hit with hit1 | hit1
          · subst hit1; exact ⟨rfl, rfl, rfl, rfl, rfl⟩
          · exact hfields it hit1
        · simp [mkDryItem, hfeat]

/-- When some row's userid derivation fails, the loop aborts with
`ValueError`. -/
theorem dryRunLoop_error (hdr : List String) :
    ∀ rows, (∃ row ∈ rows, deriveUserid (rowRecord hdr row) = none) →
    dryRunLoop hdr rows = .error "ValueError" := by
  intro rows
  induction rows with
  | nil => rintro ⟨row, hmem, _⟩; simp at hmem
  | cons row rest ih =>
      rintro ⟨r, hmem, hfail⟩
      rcases List.mem_cons.mp hmem with hr | hr
      · subst hr; simp [dryRunLoop, hfail]
      · rcases hu : deriveUserid (rowRecord hdr row) with _ | uid
        · simp [dryRunLoop, hu]
        · simp [dryRunLoop, hu, ih ⟨r, hr, hfail⟩]

/-! ### Helper lemmas about zipping header and row -/

/-- The keys of a zip are the header truncated to the row length. -/
theorem map_fst_zip_eq_take {α β : Type} :
    ∀ (l1 : List α) (l2 : List β),
      (l1.zip l2).map Prod.fst = l1.take l2.length := by
  intro l1
  induction l1 with
  | nil => intro l2; simp
  | cons a t ih =>
      intro l2
      cases l2 with
      | nil => simp
      | cons b t2 => simp [ih]

/-- Looking up the `i`-th header name in the zip finds the `i`-th value,
provided header names are pairwise distinct and the row is long enough. -/
theorem dictGet_zip_of_lt :
    ∀ (hdr cols : List String), hdr.Nodup →
      ∀ i (hi : i < hdr.length) (hj : i < cols.length),
        dictGet (hdr.zip cols) (hdr.get ⟨i, hi⟩) = some (cols.get ⟨i, hj⟩) := by
  intro hdr
  induction hdr with
  | nil => intro cols _ i hi hj; exact absurd hi (by simp)
  | cons h t ih =>
      intro cols hnd i hi hj
      cases cols with
      | nil => exact absurd hj (by simp)
      | cons c ct =>
          rw [List.nodup_cons] at hnd
          cases i with
          | zero => simp [dictGet]
          | succ n =>
              have hne : h ≠ t.get ⟨n, by simpa using hi⟩ := by
                intro he
                exact hnd.1 (he ▸ List.get_mem t _ _)
              simp only [List.zip_cons_cons, List.get_cons_succ, dictGet]
              rw [if_neg hne]
              exact ih ct hnd.2 n _ _

/-- Looking up a header name beyond the row length finds nothing, provided
header names are pairwise distinct. -/
theorem dictGet_zip_of_ge :
    ∀ (hdr cols : List String), hdr.Nodup →
      ∀ i (hi : i < hdr.length), cols.length ≤ i →
        dictGet (hdr.zip cols) (hdr.get ⟨i, hi⟩) = none := by
  intro hdr
  induction hdr with
  | nil => intro cols _ i hi; exact absurd hi (by simp)
  | cons h t ih =>
      intro cols hnd i hi hge
      cases cols with
      | nil => simp [dictGet]
      | cons c ct =>
          rw [List.nodup_cons] at hnd
          cases i with
          | zero => exact absurd hge (by simp)
          | succ n =>
              have hne : h ≠ t.get ⟨n, by simpa using hi⟩ := by
                intro he
                exact hnd.1 (he ▸ List.get_mem t _ _)
              simp only [List.zip_cons_cons, List.get_cons_succ, dictGet]
              rw [if_neg hne]
              exact ih ct hnd.2 n _ (by simpa using hge)

/-- The run label a `dryOk` response carries is always the effective
request label. -/
theorem analyze_dryOk_label (apiKey today : String) (mo : String → String)
    (req : AnalyzeRequest) (rl : String) (items : List DryItem)
    (h : analyze apiKey today mo req = .dryOk rl items) :
    rl = effectiveRunLabel req today := by
  unfold analyze at h
  split at h
  · exact absurd h (by simp)
  · split at h
    · unfold dryRunResponse at h
      split at h
      · cases h; rfl
      · exact absurd h (by simp)
    · unfold liveResponse at h
      split at h
      · split at h
        · exact absurd h (by simp)
        · exact absurd h (by simp)
      · exact absurd h (by simp)

/-! ### Claim theorems -/

/-- C2: for every request whose `csv` field is absent, empty, or
whitespace-only, `/analyze` answers 400 with body
`\x7b"error": "Missing CSV data"\x7d`, whatever the `schema`, `run_label`
and `dryrun` fields hold, and independently of the external model oracle
(so no model call can influence the outcome). -/
theorem c2_missing_csv (apiKey today : String) (mo : String → String)
    (req : AnalyzeRequest)
    (h : req.csv = none ∨ ∃ s, req.csv = some s ∧ ∀ c ∈ s.data, isPySpace c) :
    analyze apiKey today mo req = .badRequest "Missing CSV data" := by
  have hcsv : effectiveCsv req = "" := by
    unfold effectiveCsv pyStrip
    rcases h with h | ⟨s, hs, hall⟩
    · rw [h]
      rfl
    · rw [hs]
      show (⟨pyStripList s.data⟩ : String) = ""
      rw [pyStripList_eq_nil s.data hall]
  unfold analyze
  rw [if_pos hcsv]

/-- C2 witness: a whitespace-only `csv` field is rejected with the 400
envelope, whatever the other fields are. -/
theorem c2_missing_csv_witness :
    analyze "key" "2025-10-12" (fun _ => "ignored")
      ⟨some " \t \n ", some ["a", "b"], some "lbl", some (Json.bool true)⟩ =
      .badRequest "Missing CSV data" :=
  c2_missing_csv "key" "2025-10-12" (fun _ => "ignored")
    ⟨some " \t \n ", some ["a", "b"], some "lbl", some (Json.bool true)⟩
    (Or.inr ⟨" \t \n ", rfl, by decide⟩)

/-- C7: once CSV validation passes, the handler takes the deterministic
dry-run branch exactly when `chooseDryRun` holds, i.e. when the `dryrun`
field coerces to a truthy value or no API credential is configured; in
that case the outcome ignores the external oracle entirely, and otherwise
the live branch consults the oracle on the built prompt. The two branches
are the mutually exclusive arms of one conditional. -/
theorem c7_mode_selection (apiKey today : String) (mo : String → String)
    (req : AnalyzeRequest) (hcsv : effectiveCsv req ≠ "") :
    (chooseDryRun apiKey req = true →
      analyze apiKey today mo req =
        dryRunResponse (effectiveRunLabel req today) (effectiveCsv req)
      ∧ ∀ mo', analyze apiKey today mo' req = analyze apiKey today mo req)
    ∧ (chooseDryRun apiKey req = false →
      analyze apiKey today mo req =
        liveResponse (effectiveRunLabel req today) (mo (promptOf req today)))
    ∧ (chooseDryRun apiKey req = true ↔
        (effectiveDryrun req = true ∨ apiKey = "")) := by
  refine ⟨fun h => ⟨?_, fun mo' => ?_⟩, fun h => ?_, ?_⟩
  · simp [analyze, hcsv, h]
  · simp [analyze, hcsv, h]
  · simp [analyze, hcsv, h]
  · simp [chooseDryRun, Bool.or_eq_true, decide_eq_true_eq]

/-- C7 witness: with a configured credential and `dryrun: true`, the
dry-run branch is chosen, and the truthiness characterisation holds. -/
theorem c7_mode_selection_witness :
    (analyze "key" "2025-10-12" (fun _ => "x")
        ⟨some "userid\n1", none, some "L", some (Json.bool true)⟩ =
      dryRunResponse "L" "userid\n1")
    ∧ (chooseDryRun "key" ⟨some "userid\n1", none, some "L", some (Json.bool true)⟩ = true
        ↔ (effectiveDryrun ⟨some "userid\n1", none, some "L", some (Json.bool true)⟩ = true
            ∨ "key" = "")) := by
  have h := c7_mode_selection "key" "2025-10-12" (fun _ => "x")
    ⟨some "userid\n1", none, some "L", some (Json.bool true)⟩ (by decide)
  exact ⟨(h.1 (by decide)).1, h.2.2⟩

/-- C9: the dry-run outcome does not depend on the `schema` field (nor on
the oracle): two requests that agree on `csv`, `run_label` and `dryrun`
and are handled in dry-run mode get identical responses. -/
theorem c9_schema_noninterference (apiKey today : String)
    (mo mo' : String → String) (req req' : AnalyzeRequest)
    (hcsv : req.csv = req'.csv) (hrl : req.run_label = req'.run_label)
    (hdr : req.dryrun = req'.dryrun)
    (hmode : chooseDryRun apiKey req = true) :
    analyze apiKey today mo req = analyze apiKey today mo' req' := by
  have e1 : effectiveCsv req = effectiveCsv req' := by
    unfold effectiveCsv
    rw [hcsv]
  have e2 : effectiveRunLabel req today = effectiveRunLabel req' today := by
    unfold effectiveRunLabel
    rw [hrl]
  have e3 : chooseDryRun apiKey req' = true := by
    unfold chooseDryRun effectiveDryrun at hmode ⊢
    rw [← hdr]
    exact hmode
  unfold analyze
  rw [← e1, ← e2]
  by_cases hc : effectiveCsv req = ""
  · simp [hc]
  · simp [hc, hmode, e3]

/-- C9 witness: two dry-run requests differing only in `schema` (one
custom, one absent) produce the same response, even under different
oracles. -/
theorem c9_schema_noninterference_witness :
    analyze "key" "2025-10-12" (fun _ => "x")
        ⟨some "userid\n1", some ["only", "schema"], some "L", some (Json.bool true)⟩ =
      analyze "key" "2025-10-12" (fun _ => "y")
        ⟨some "userid\n1", none, some "L", some (Json.bool true)⟩ :=
  c9_schema_noninterference "key" "2025-10-12" (fun _ => "x") (fun _ => "y")
    ⟨some "userid\n1", some ["only", "schema"], some "L", some (Json.bool true)⟩
    ⟨some "userid\n1", none, some "L", some (Json.bool true)⟩
    rfl rfl rfl (by decide)

/-- C10: in live mode, when the upstream text parses directly as JSON whose
top level is not an object, post-processing raises (`AttributeError` on
`setdefault`) and the request answers 500, not a coerced result with empty
items. -/
theorem c10_nonobject_500 (apiKey today : String) (mo : String → String)
    (req : AnalyzeRequest) (j : Json)
    (hmode : chooseDryRun apiKey req = false) (hcsv : effectiveCsv req ≠ "")
    (hparse : jsonParse (mo (promptOf req today)) = some j)
    (hnotobj : ∀ fs, j ≠ Json.obj fs) :
    analyze apiKey today mo req = .serverError "AttributeError" := by
  have hpp : postProcess (effectiveRunLabel req today) j =
      .error "AttributeError" := by
    cases j with
    | obj fs => exact absurd rfl (hnotobj fs)
    | null => rfl
    | bool b => rfl
    | num s => rfl
    | str s => rfl
    | arr xs => rfl
  have hpm : parseModelText (mo (promptOf req today)) = .ok j := by
    unfold parseModelText parseModelTextL
    unfold jsonParse at hparse
    rw [hparse]
  simp [analyze, hcsv, hmode, liveResponse, hpm, hpp]

/-- C10 witness: an upstream response of `[1, 2]` (a JSON array) makes the
live request fail with the 500 envelope. -/
theorem c10_nonobject_500_witness :
    analyze "key" "2025-10-12" (fun _ => "[1, 2]")
      ⟨some "userid\n1", none, some "L", none⟩ =
      .serverError "AttributeError" :=
  c10_nonobject_500 "key" "2025-10-12" (fun _ => "[1, 2]")
    ⟨some "userid\n1", none, some "L", none⟩
    (Json.arr [Json.num "1", Json.num "2"])
    (by decide) (by decide) rfl
    (fun fs h => Json.noConfusion h)

/-- C5: whenever the upstream response text yields a JSON object (directly
or through recovery), the 200 body is that object with `items` always
present as a sequence: the upstream array is kept, and a missing or
non-array `items` is coerced to the empty array rather than left null or
absent. -/
theorem c5_items_coerced (apiKey today : String) (mo : String → String)
    (req : AnalyzeRequest) (fs : List (String × Json))
    (hmode : chooseDryRun apiKey req = false) (hcsv : effectiveCsv req ≠ "")
    (hparse : parseModelText (mo (promptOf req today)) = .ok (Json.obj fs)) :
    ∃ fs', analyze apiKey today mo req = .liveOk (Json.obj fs')
      ∧ ∃ xs, dictGet fs' "items" = some (Json.arr xs)
      ∧ (match dictGet fs "items" with
         | some (Json.arr ys) => xs = ys
         | _ => xs = []) := by
  have hana : analyze apiKey today mo req =
      (match postProcess (effectiveRunLabel req today) (Json.obj fs) with
       | .ok body => AnalyzeResponse.liveOk body
       | .error e => AnalyzeResponse.serverError e) := by
    simp [analyze, hcsv, hmode, liveResponse, hparse]
  set rl := effectiveRunLabel req today with hrldef
  set f1 := if (dictGet fs "run_label").isSome then fs
            else fs ++ [("run_label", Json.str rl)] with hf1
  have hitems1 : dictGet f1 "items" = dictGet fs "items" := by
    rw [hf1]
    split
    · rfl
    · exact dictGet_append_right_ne fs "items" "run_label" _ (by decide)
  have hpp : postProcess rl (Json.obj fs) =
      .ok (.obj (match dictGet f1 "items" with
        | some (Json.arr _) => f1
        | _ => dictSet f1 "items" (Json.arr []))) := by
    simp only [postProcess]
  rcases hv : dictGet fs "items" with _ | v
  · have hd1 : dictGet f1 "items" = none := by rw [hitems1, hv]
    refine ⟨dictSet f1 "items" (Json.arr []), ?_, [], ?_, ?_⟩
    · rw [hana, hpp, hd1]
    · exact dictGet_dictSet_self f1 "items" (Json.arr [])
    · simp [hv]
  · have hd1 : dictGet f1 "items" = some v := by rw [hitems1, hv]
    cases v
    case arr ys =>
      refine ⟨f1, ?_, ys, hd1, ?_⟩
      · rw [hana, hpp, hd1]
      · simp [hv]
    all_goals
      refine ⟨dictSet f1 "items" (Json.arr []), ?_, [], ?_, ?_⟩
      · rw [hana, hpp, hd1]
      · exact dictGet_dictSet_self f1 "items" (Json.arr [])
      · simp [hv]

/-- C5 witness: an upstream object whose `items` is the number `7` is
answered 200 with `items` coerced to the empty array. -/
theorem c5_items_coerced_witness :
    ∃ fs', analyze "key" "2025-10-12" (fun _ => "\x7b\"items\": 7\x7d")
        ⟨some "userid\n1", none, some "L", none⟩ = .liveOk (Json.obj fs')
      ∧ ∃ xs, dictGet fs' "items" = some (Json.arr xs)
      ∧ (match dictGet [(("items" : String), Json.num "7")] "items" with
         | some (Json.arr ys) => xs = ys
         | _ => xs = []) :=
  c5_items_coerced "key" "2025-10-12" (fun _ => "\x7b\"items\": 7\x7d")
    ⟨some "userid\n1", none, some "L", none⟩
    [("items", Json.num "7")] (by decide) (by decide) rfl

/-- C6 counterexample to the round-trip claim: a live-mode request carrying
`run_label: "mine"` is answered 200 with `run_label: "other"` when the
upstream model returns a different label — `setdefault` only injects the
request label when the key is absent. -/
theorem c6_counterexample :
    analyze "key" "2025-10-12"
        (fun _ => "\x7b\"run_label\": \"other\", \"items\": []\x7d")
        ⟨some "userid\n1", none, some "mine", none⟩ =
      .liveOk (Json.obj [("run_label", Json.str "other"),
                         ("items", Json.arr [])])
    ∧ ("other" : String) ≠ "mine" := ⟨rfl, by decide⟩

/-- C6 amended: the `run_label` round-trip holds for dry-run responses
(non-empty labels come back unchanged, absent or empty ones come back as
`manual_` + today's date), and in live mode the request label appears in
the response whenever the upstream object does not itself carry a
`run_label` key. -/
theorem c6_run_label_amended :
    (∀ apiKey today : String, ∀ mo : String → String,
      ∀ req : AnalyzeRequest, ∀ s rl : String, ∀ items : List DryItem,
      req.run_label = some s → s ≠ "" →
      analyze apiKey today mo req = .dryOk rl items → rl = s)
    ∧ (∀ apiKey today : String, ∀ mo : String → String,
      ∀ req : AnalyzeRequest, ∀ rl : String, ∀ items : List DryItem,
      (req.run_label = none ∨ req.run_label = some "") →
      analyze apiKey today mo req = .dryOk rl items →
      rl = "manual_" ++ today)
    ∧ (∀ apiKey today : String, ∀ mo : String → String,
      ∀ req : AnalyzeRequest, ∀ s : String, ∀ fs : List (String × Json),
      req.run_label = some s → s ≠ "" →
      chooseDryRun apiKey req = false → effectiveCsv req ≠ "" →
      parseModelText (mo (promptOf req today)) = .ok (Json.obj fs) →
      dictGet fs "run_label" = none →
      ∃ fs', analyze apiKey today mo req = .liveOk (Json.obj fs')
        ∧ dictGet fs' "run_label" = some (Json.str s)) := by
  refine ⟨?_, ?_, ?_⟩
  · intro apiKey today mo req s rl items hsome hne h
    rw [analyze_dryOk_label apiKey today mo req rl items h]
    simp [effectiveRunLabel, hsome, hne]
  · intro apiKey today mo req rl items hdef h
    rw [analyze_dryOk_label apiKey today mo req rl items h]
    rcases hdef with hdef | hdef <;> simp [effectiveRunLabel, hdef]
  · intro apiKey today mo req s fs hsome hne hmode hcsv hparse hnone
    have hana : analyze apiKey today mo req =
        (match postProcess (effectiveRunLabel req today) (Json.obj fs) with
         | .ok body => AnalyzeResponse.liveOk body
         | .error e => AnalyzeResponse.serverError e) := by
      simp [analyze, hcsv, hmode, liveResponse, hparse]
    have hrl : effectiveRunLabel req today = s := by
      simp [effectiveRunLabel, hsome, hne]
    set f1 := fs ++ [("run_label", Json.str s)] with hf1
    have hpp : postProcess s (Json.obj fs) =
        .ok (.obj (match dictGet f1 "items" with
          | some (Json.arr _) => f1
          | _ => dictSet f1 "items" (Json.arr []))) := by
      simp only [postProcess, hnone, Option.isSome_none, Bool.false_eq_true,
        if_false]
    have hgetf1 : dictGet f1 "run_label" = some (Json.str s) := by
      rw [hf1]
      exact dictGet_append_self fs "run_label" _ hnone
    refine ⟨(match dictGet f1 "items" with
        | some (Json.arr _) => f1
        | _ => dictSet f1 "items" (Json.arr [])), ?_, ?_⟩
    · rw [hana, hrl, hpp]
    · split
      · exact hgetf1
      · rw [dictGet_dictSet_ne f1 "run_label" "items" _ (by decide)]
        exact hgetf1

/-- C6 amended witness: a dry-run request with label `L` gets `L` back; a
live request whose upstream object lacks `run_label` gets its own label
injected. -/
theorem c6_run_label_amended_witness :
    (("L" : String) = "L")
    ∧ ∃ fs', analyze "key" "2025-10-12" (fun _ => "\x7b\"items\": []\x7d")
        ⟨some "userid\n1", none, some "mine", none⟩ = .liveOk (Json.obj fs')
      ∧ dictGet fs' "run_label" = some (Json.str "mine") := by
  constructor
  · exact c6_run_label_amended.1 "key" "2025-10-12" (fun _ => "x")
      ⟨some "userid\n1", none, some "L", some (Json.bool true)⟩ "L" "L"
      [mkDryItem 1 [("userid", "1")]] rfl (by decide) (by rfl)
  · exact c6_run_label_amended.2.2 "key" "2025-10-12" (fun _ => "\x7b\"items\": []\x7d")
      ⟨some "userid\n1", none, some "mine", none⟩ "mine" [("items", Json.arr [])]
      rfl (by decide) (by decide) (by decide) rfl rfl

/-- Userids of the items a successful dry-run loop emits: one per row,
each the derived value of that row's record. -/
theorem dryRunLoop_userids (hdr : List String) :
    ∀ rows items, dryRunLoop hdr rows = .ok items →
      items.map DryItem.userid =
        rows.map (fun row => (deriveUserid (rowRecord hdr row)).getD 0) := by
  intro rows
  induction rows with
  | nil =>
      intro items h
      cases h
      rfl
  | cons row rest ih =>
      intro items h
      unfold dryRunLoop at h
      rcases hu : deriveUserid (rowRecord hdr row) with _ | uid
      · rw [hu] at h
        cases h
      · rw [hu] at h
        rcases hl : dryRunLoop hdr rest with e | items'
        · rw [hl] at h
          cases h
        · rw [hl] at h
          cases h
          simp [mkDryItem, hu, ih items' hl]

/-- C1 counterexample: a dry-run request over CSV with a non-blank header
and one data row whose `userid` value is not an integer literal is
answered 500 (`int("abc")` raises), not 200 with placeholder items. -/
theorem c1_counterexample :
    analyze "" "2025-10-12" (fun _ => "")
      ⟨some "userid\nabc", none, some "L", none⟩ =
      .serverError "ValueError" := rfl

/-- C1 amended: for every dry-run request whose CSV has at least one
non-blank line and whose every data row derives a userid without raising
(the field absent, empty, or an integer literal), the response is 200 with
exactly one item per non-blank line after the header, every item carrying
`risk_score=50.0`, `confidence=0.4`, `drivers=["dry-run mode"]`, the two
fixed messages, and `features` equal to the row's header-to-value
mapping. -/
theorem c1_dry_run_shape (apiKey today : String) (mo : String → String)
    (req : AnalyzeRequest)
    (hmode : chooseDryRun apiKey req = true)
    (hne : nonBlankLines (effectiveCsv req) ≠ [])
    (hall : ∀ row ∈ (nonBlankLines (effectiveCsv req)).drop 1,
        (deriveUserid (rowRecord (headerOf (effectiveCsv req)) row)).isSome
          = true) :
    ∃ items, analyze apiKey today mo req =
        .dryOk (effectiveRunLabel req today) items
      ∧ items.length = (nonBlankLines (effectiveCsv req)).length - 1
      ∧ (∀ it ∈ items, it.risk_score = 50 ∧ it.confidence = 2/5
          ∧ it.drivers = ["dry-run mode"]
          ∧ it.student_msg = "Dry-run preview."
          ∧ it.teacher_msg = "Dry-run: Verify Moodle ↔ Analytics link.")
      ∧ items.map DryItem.features =
          ((nonBlankLines (effectiveCsv req)).drop 1).map
            (rowRecord (headerOf (effectiveCsv req))) := by
  have hcsv : effectiveCsv req ≠ "" := by
    intro h
    apply hne
    rw [h]
    decide
  obtain ⟨items, hloop, hlen, hfields, hfeat⟩ :=
    dryRunLoopSound (headerOf (effectiveCsv req))
      ((nonBlankLines (effectiveCsv req)).drop 1) hall
  rw [List.drop_one] at hloop
  refine ⟨items, ?_, ?_, hfields, hfeat⟩
  · simp [analyze, hcsv, hmode, dryRunResponse, hloop]
  · rw [hlen]
    simp

/-- C1 witness: a two-row CSV in dry-run mode produces two well-shaped
placeholder items. -/
theorem c1_dry_run_shape_witness :
    ∃ items, analyze "key" "2025-01-01" (fun _ => "")
        ⟨some "userid,username\n1,alice\n2,bob", none, some "L",
          some (Json.bool true)⟩ =
        .dryOk (effectiveRunLabel
          ⟨some "userid,username\n1,alice\n2,bob", none, some "L",
            some (Json.bool true)⟩ "2025-01-01") items
      ∧ items.length =
          (nonBlankLines (effectiveCsv
            ⟨some "userid,username\n1,alice\n2,bob", none, some "L",
              some (Json.bool true)⟩)).length - 1
      ∧ (∀ it ∈ items, it.risk_score = 50 ∧ it.confidence = 2/5
          ∧ it.drivers = ["dry-run mode"]
          ∧ it.student_msg = "Dry-run preview."
          ∧ it.teacher_msg = "Dry-run: Verify Moodle ↔ Analytics link.")
      ∧ items.map DryItem.features =
          ((nonBlankLines (effectiveCsv
            ⟨some "userid,username\n1,alice\n2,bob", none, some "L",
              some (Json.bool true)⟩)).drop 1).map
            (rowRecord (headerOf (effectiveCsv
              ⟨some "userid,username\n1,alice\n2,bob", none, some "L",
                some (Json.bool true)⟩))) :=
  c1_dry_run_shape "key" "2025-01-01" (fun _ => "")
    ⟨some "userid,username\n1,alice\n2,bob", none, some "L",
      some (Json.bool true)⟩
    (by decide) (by decide) (by decide)

/-- C3 counterexample: in dry-run mode a row whose `userid` value is the
non-integer `1.5` does not yield an item with `userid = 0`; the request
fails with the 500 envelope of the raising `int()`. -/
theorem c3_counterexample :
    analyze "key" "2025-10-12" (fun _ => "")
      ⟨some "userid,score\n1.5,x", none, some "L", some (Json.bool true)⟩ =
      .serverError "ValueError" := rfl

/-- C3 amended: the emitted userid is the integer parse of the row's
`userid` field; an absent or empty field defaults to 0; the items of a
successful dry-run carry exactly the derived userids; but when a non-empty
field fails to parse, the request fails with a 500 `ValueError` rather
than defaulting to 0. -/
theorem c3_userid_amended :
    (∀ hdr : List String, ∀ row : String,
      dictGet (rowRecord hdr row) "userid" = none →
      deriveUserid (rowRecord hdr row) = some 0)
    ∧ (∀ hdr : List String, ∀ row : String,
      dictGet (rowRecord hdr row) "userid" = some "" →
      deriveUserid (rowRecord hdr row) = some 0)
    ∧ (∀ hdr : List String, ∀ row s : String, ∀ n : Int,
      dictGet (rowRecord hdr row) "userid" = some s → s ≠ "" →
      pyInt s = some n → deriveUserid (rowRecord hdr row) = some n)
    ∧ (∀ hdr : List String, ∀ rows : List String, ∀ items : List DryItem,
      dryRunLoop hdr rows = .ok items →
      items.map DryItem.userid =
        rows.map (fun row => (deriveUserid (rowRecord hdr row)).getD 0))
    ∧ (∀ apiKey today : String, ∀ mo : String → String,
      ∀ req : AnalyzeRequest, chooseDryRun apiKey req = true →
      (∃ row ∈ (nonBlankLines (effectiveCsv req)).drop 1,
        deriveUserid (rowRecord (headerOf (effectiveCsv req)) row) = none) →
      analyze apiKey today mo req = .serverError "ValueError") := by
  refine ⟨?_, ?_, ?_, ?_, ?_⟩
  · intro hdr row h
    unfold deriveUserid
    rw [h]
  · intro hdr row h
    unfold deriveUserid
    rw [h]
    rfl
  · intro hdr row s n h hne hp
    unfold deriveUserid
    rw [h]
    simp [hne, hp]
  · exact fun hdr rows items h => dryRunLoop_userids hdr rows items h
  · intro apiKey today mo req hmode hex
    have hne : nonBlankLines (effectiveCsv req) ≠ [] := by
      rcases hex with ⟨row, hrow, _⟩
      intro h0
      rw [h0] at hrow
      simp at hrow
    have hcsv : effectiveCsv req ≠ "" := by
      intro h
      apply hne
      rw [h]
      decide
    have hloop := dryRunLoop_error (headerOf (effectiveCsv req)) _ hex
    rw [List.drop_one] at hloop
    simp [analyze, hcsv, hmode, dryRunResponse, hloop]

/-- C3 amended witness: the absent, empty, parseable and failing cases on
concrete rows. -/
theorem c3_userid_amended_witness :
    (deriveUserid (rowRecord ["x"] "7") = some 0)
    ∧ (deriveUserid (rowRecord ["userid"] "") = some 0)
    ∧ (deriveUserid (rowRecord ["userid"] "42") = some 42)
    ∧ ([mkDryItem 1 [("userid", "1")]].map DryItem.userid =
        ["1"].map (fun row =>
          (deriveUserid (rowRecord ["userid"] row)).getD 0))
    ∧ (analyze "" "2025-10-12" (fun _ => "")
        ⟨some "userid\nzz", none, some "L", none⟩ =
        .serverError "ValueError") :=
  ⟨c3_userid_amended.1 ["x"] "7" (by decide),
   c3_userid_amended.2.1 ["userid"] "" (by decide),
   c3_userid_amended.2.2.1 ["userid"] "42" "42" 42 (by decide) (by decide)
     (by decide),
   c3_userid_amended.2.2.2.1 ["userid"] ["1"] [mkDryItem 1 [("userid", "1")]]
     (by rfl),
   c3_userid_amended.2.2.2.2 "" "2025-10-12" (fun _ => "")
     ⟨some "userid\nzz", none, some "L", none⟩ (by decide)
     ⟨"zz", by decide, by decide⟩⟩

/-- A character absent from a list has no last occurrence either. -/
theorem rfindIdxC_eq_none (c : Char) (l : List Char) (h : c ∉ l) :
    rfindIdxC c l = none := by
  unfold rfindIdxC
  rw [findIdxC_eq_none c l.reverse (by simpa using h)]

/-- C4: live-mode response-text parsing. A directly valid JSON text is
used as parsed; otherwise the slice from the first `\x7b` to the last
`\x7d` inclusive is parsed, which recovers the object whenever one
brace-delimited JSON span is wrapped in extraneous text (no `\x7b` before
it, no `\x7d` after it); and when (the direct parse failing) the text has
no `\x7b` or no `\x7d`, the `ValueError` surfaces as the 500 envelope. -/
theorem c4_json_recovery :
    (∀ t : String, ∀ j : Json, jsonParse t = some j →
      parseModelText t = .ok j)
    ∧ (∀ p m s : List Char, ∀ j : Json,
      jsonParseL (p ++ m ++ s) = none → '{' ∉ p → '}' ∉ s →
      m.head? = some '{' → m.getLast? = some '}' →
      jsonParseL m = some j →
      parseModelTextL (p ++ m ++ s) = .ok j)
    ∧ (∀ apiKey today : String, ∀ mo : String → String,
      ∀ req : AnalyzeRequest,
      chooseDryRun apiKey req = false → effectiveCsv req ≠ "" →
      jsonParse (mo (promptOf req today)) = none →
      ('{' ∉ (mo (promptOf req today)).data
        ∨ '}' ∉ (mo (promptOf req today)).data) →
      analyze apiKey today mo req =
        .serverError "ValueError: Invalid JSON returned from model") := by
  refine ⟨?_, ?_, ?_⟩
  · intro t j h
    unfold jsonParse at h
    unfold parseModelText parseModelTextL
    rw [h]
  · intro p m s j hdirect hp hs hhead hlast hm
    obtain ⟨mt, rfl⟩ : ∃ mt, m = '{' :: mt := by
      cases m with
      | nil => cases hhead
      | cons a mt =>
          simp only [List.head?] at hhead
          injection hhead with ha
          subst ha
          exact ⟨mt, rfl⟩
    have hfind : findIdxC '{' (p ++ ('{' :: mt) ++ s) = some p.length := by
      rw [List.append_assoc, findIdxC_append '{' p _ hp]
      simp [findIdxC]
    obtain ⟨mr, hmr⟩ : ∃ mr, ('{' :: mt).reverse = '}' :: mr := by
      have hm_last : ('{' :: mt).reverse.head? = some '}' := by
        rw [List.head?_reverse]
        exact hlast
      cases hrev : ('{' :: mt).reverse with
      | nil => rw [hrev] at hm_last; cases hm_last
      | cons a mr =>
          rw [hrev] at hm_last
          simp only [List.head?] at hm_last
          injection hm_last with ha
          subst ha
          exact ⟨mr, rfl⟩
    have hlen1 : ('{' :: mt).length = mr.length + 1 := by
      have := congrArg List.length hmr
      simpa using this
    have hrfind : rfindIdxC '}' (p ++ ('{' :: mt) ++ s) =
        some (p.length + ('{' :: mt).length - 1) := by
      have h1 : findIdxC '}' ((p ++ ('{' :: mt) ++ s).reverse) =
          some s.length := by
        rw [show (p ++ ('{' :: mt) ++ s).reverse =
            s.reverse ++ (('{' :: mt).reverse ++ p.reverse) by
          simp [List.reverse_append, List.append_assoc]]
        rw [findIdxC_append '}' s.reverse _ (by simpa using hs), hmr]
        simp [findIdxC]
      unfold rfindIdxC
      rw [h1]
      simp only [List.length_append, List.length_cons, Option.some.injEq]
      omega
    have hslice : pySlice (p ++ ('{' :: mt) ++ s) p.length
        (p.length + ('{' :: mt).length - 1 + 1) = '{' :: mt := by
      unfold pySlice
      have harith : p.length + ('{' :: mt).length - 1 + 1 - p.length =
          ('{' :: mt).length := by
        simp only [List.length_cons]
        omega
      rw [harith, List.append_assoc, List.drop_left]
      exact List.take_left _ _
    unfold parseModelTextL
    rw [hdirect, hfind, hrfind]
    simp only [hslice, hm]
  · intro apiKey today mo req hmode hcsv hdirect hbrace
    have herr : parseModelText (mo (promptOf req today)) =
        .error "ValueError: Invalid JSON returned from model" := by
      unfold parseModelText parseModelTextL
      unfold jsonParse at hdirect
      rw [hdirect]
      rcases hbrace with hb | hb
      · rw [findIdxC_eq_none _ _ hb]
      · rw [rfindIdxC_eq_none _ _ hb]
        rcases hf : findIdxC '{' (mo (promptOf req today)).data with _ | i
          <;> simp
    simp [analyze, hcsv, hmode, liveResponse, herr]

/-- C4 witness: recovery of one wrapped object, and the 500 on a braceless
text in live mode. -/
theorem c4_json_recovery_witness :
    (parseModelText "\x7b\"a\": 1\x7d" = .ok (Json.obj [("a", Json.num "1")]))
    ∧ (parseModelTextL ("Here is the result: ".data
        ++ "\x7b\"ok\": true\x7d".data ++ " Thanks!".data) =
        .ok (Json.obj [("ok", Json.bool true)]))
    ∧ (analyze "key" "2025-10-12" (fun _ => "no braces at all")
        ⟨some "userid\n1", none, some "L", none⟩ =
        .serverError "ValueError: Invalid JSON returned from model") :=
  ⟨c4_json_recovery.1 "\x7b\"a\": 1\x7d" (Json.obj [("a", Json.num "1")]) rfl,
   c4_json_recovery.2.1 "Here is the result: ".data "\x7b\"ok\": true\x7d".data
     " Thanks!".data (Json.obj [("ok", Json.bool true)])
     (by rfl) (by decide) (by decide) (by decide) (by decide) (by rfl),
   c4_json_recovery.2.2 "key" "2025-10-12" (fun _ => "no braces at all")
     ⟨some "userid\n1", none, some "L", none⟩
     (by decide) (by decide) rfl (Or.inl (by decide))⟩

/-- C8: for a header with pairwise distinct names, the record built for a
row is the zip of header and comma-split values truncated to the shorter
length — its keys are the first `min` header names, a header name beyond
the value count maps to nothing, and surplus values are dropped. -/
theorem c8_zip_truncation (hdr : List String) (row : String)
    (hnd : hdr.Nodup) :
    rowRecord hdr row = hdr.zip (pySplitComma row)
    ∧ (rowRecord hdr row).length =
        min hdr.length (pySplitComma row).length
    ∧ (rowRecord hdr row).map Prod.fst =
        hdr.take (pySplitComma row).length
    ∧ (∀ i (hi : i < hdr.length), (pySplitComma row).length ≤ i →
        dictGet (rowRecord hdr row) (hdr.get ⟨i, hi⟩) = none)
    ∧ (∀ i (hi : i < hdr.length) (hj : i < (pySplitComma row).length),
        dictGet (rowRecord hdr row) (hdr.get ⟨i, hi⟩) =
          some ((pySplitComma row).get ⟨i, hj⟩)) := by
  have hz : rowRecord hdr row = hdr.zip (pySplitComma row) := by
    unfold rowRecord
    apply mkDict_eq_self
    rw [map_fst_zip_eq_take]
    exact List.Sublist.nodup (List.take_sublist _ _) hnd
  refine ⟨hz, ?_, ?_, ?_, ?_⟩
  · rw [hz]
    exact List.length_zip _ _
  · rw [hz]
    exact map_fst_zip_eq_take _ _
  · intro i hi hle
    rw [hz]
    exact dictGet_zip_of_ge hdr _ hnd i hi hle
  · intro i hi hj
    rw [hz]
    exact dictGet_zip_of_lt hdr _ hnd i hi hj

/-- C8 witness: a three-name header zipped against a two-value row keeps
two entries; the third name has no entry, the first maps to the first
value. -/
theorem c8_zip_truncation_witness :
    rowRecord ["a", "b", "c"] "1,2" = ["a", "b", "c"].zip (pySplitComma "1,2")
    ∧ (rowRecord ["a", "b", "c"] "1,2").length =
        min (["a", "b", "c"] : List String).length (pySplitComma "1,2").length
    ∧ dictGet (rowRecord ["a", "b", "c"] "1,2") "c" = none
    ∧ dictGet (rowRecord ["a", "b", "c"] "1,2") "a" = some "1" := by
  have h := c8_zip_truncation ["a", "b", "c"] "1,2" (by decide)
  refine ⟨h.1, h.2.1, ?_, ?_⟩
  · have h4 := h.2.2.2.1 2 (by decide) (by decide)
    simpa using h4
  · have h5 := h.2.2.2.2 0 (by decide) (by decide)
    simpa using h5
